import Mathlib

/-!
Shallow embedding of `falcon/util.py`, the utility module of the Falcon web
framework: HTTP date conversion (`dt_to_http`, `http_date_to_dt`),
query-string building (`to_query_str`), percent encoding and decoding
(`percent_escape`, `percent_unescape`) and the deprecation decorator
(`deprecated`).

Python strings are modelled as Lean `String` (lists of unicode scalar
values), Python `datetime.datetime` values as a record of numeric fields
restricted to second precision, and the behaviour of the CPython library
routines the module calls (`datetime.strftime`, `datetime.strptime`,
`urllib.parse.quote`, `urllib.parse.unquote_plus`, `warnings`) is embedded
faithfully for the fixed arguments the module passes them.
-/

namespace Falcon

/-- A Python `datetime.datetime` restricted to second precision
(`microsecond = 0`), which is all the HTTP date functions look at. -/
structure PyDateTime where
  year : Nat
  month : Nat
  day : Nat
  hour : Nat
  minute : Nat
  second : Nat
deriving DecidableEq, Repr

/-- Leap year test, as in CPython `datetime._is_leap`. -/
def isLeapYear (y : Nat) : Bool :=
  y % 4 = 0 ∧ (y % 100 ≠ 0 ∨ y % 400 = 0)

/-- Days in a month, as in CPython `datetime._days_in_month`. -/
def daysInMonth (y m : Nat) : Nat :=
  if m = 2 then (if isLeapYear y then 29 else 28)
  else if m = 4 ∨ m = 6 ∨ m = 9 ∨ m = 11 then 30
  else 31

/-- Days of year `y` strictly before month `m` (`datetime._days_before_month`). -/
def daysBeforeMonth (y m : Nat) : Nat :=
  (List.range (m - 1)).foldl (fun acc i => acc + daysInMonth y (i + 1)) 0

/-- Days strictly before January 1 of year `y` (`datetime._days_before_year`). -/
def daysBeforeYear (y : Nat) : Nat :=
  365 * (y - 1) + (y - 1) / 4 - (y - 1) / 100 + (y - 1) / 400

/-- Proleptic Gregorian ordinal of the date, with 0001-01-01 ↦ 1
(`datetime.date.toordinal`). -/
def toordinal (dt : PyDateTime) : Nat :=
  daysBeforeYear dt.year + daysBeforeMonth dt.year dt.month + dt.day

/-- Weekday index with Monday = 0 … Sunday = 6 (`datetime.date.weekday`). -/
def weekdayIndex (dt : PyDateTime) : Nat :=
  (toordinal dt + 6) % 7

/-- The invariants `datetime.datetime` enforces on construction, restricted
to second precision: 1 ≤ year ≤ 9999, 1 ≤ month ≤ 12, a day valid for the
month, and clock fields in range. -/
def Valid (dt : PyDateTime) : Prop :=
  1 ≤ dt.year ∧ dt.year ≤ 9999 ∧ 1 ≤ dt.month ∧ dt.month ≤ 12 ∧
  1 ≤ dt.day ∧ dt.day ≤ daysInMonth dt.year dt.month ∧
  dt.hour ≤ 23 ∧ dt.minute ≤ 59 ∧ dt.second ≤ 59

instance (dt : PyDateTime) : Decidable (Valid dt) := by
  unfold Valid; infer_instance

/-- Decimal digit character for `n < 10`. -/
def digitCh : Nat → Char
  | 0 => '0'
  | 1 => '1'
  | 2 => '2'
  | 3 => '3'
  | 4 => '4'
  | 5 => '5'
  | 6 => '6'
  | 7 => '7'
  | 8 => '8'
  | _ => '9'

/-- Two-digit zero-padded decimal rendering (for values below 100). -/
def pad2 (n : Nat) : List Char :=
  [digitCh (n / 10), digitCh (n % 10)]

/-- Four-digit zero-padded decimal rendering (for values below 10000). -/
def pad4 (n : Nat) : List Char :=
  [digitCh (n / 1000), digitCh (n / 100 % 10), digitCh (n / 10 % 10), digitCh (n % 10)]

/-- Unpadded decimal rendering for values below 10000 (the year domain of
`datetime`): this is what glibc `strftime` prints for `%Y`, so years below
1000 come out with fewer than four digits. -/
def natDec4 (n : Nat) : List Char :=
  if n < 10 then [digitCh n]
  else if n < 100 then [digitCh (n / 10), digitCh (n % 10)]
  else if n < 1000 then [digitCh (n / 100), digitCh (n / 10 % 10), digitCh (n % 10)]
  else pad4 n

/-- English abbreviated weekday names, Monday first, as produced by `%a`
in the C locale. -/
def wdNames : List (List Char) :=
  (["Mon", "Tue", "Wed", "Thu", "Fri", "Sat", "Sun"] : List String).map String.data

/-- English abbreviated month names, January first, as produced by `%b`
in the C locale. -/
def monNames : List (List Char) :=
  (["Jan", "Feb", "Mar", "Apr", "May", "Jun",
    "Jul", "Aug", "Sep", "Oct", "Nov", "Dec"] : List String).map String.data

/-- One `strftime` directive. `%a` is the abbreviated weekday name, `%b`
the abbreviated month name, `%d` / `%H` / `%M` / `%S` are zero-padded to
two digits, and `%Y` is the unpadded decimal year as glibc `strftime`
prints it (years below 1000 get fewer than four digits). -/
def strfDirective (dt : PyDateTime) : Char → List Char
  | 'a' => wdNames.getD (weekdayIndex dt) []
  | 'b' => monNames.getD (dt.month - 1) []
  | 'd' => pad2 dt.day
  | 'Y' => natDec4 dt.year
  | 'H' => pad2 dt.hour
  | 'M' => pad2 dt.minute
  | 'S' => pad2 dt.second
  | c => ['%', c]

/-- Model of `strftime` over a format string: literal characters pass through and
`%x` pairs are expanded by `strfDirective`. -/
def strftimeRun (dt : PyDateTime) : List Char → List Char
  | [] => []
  | '%' :: c :: rest => strfDirective dt c ++ strftimeRun dt rest
  | c :: rest => c :: strftimeRun dt rest

/-- Model of `falcon.util.dt_to_http`: `dt.strftime` with the fixed RFC 1123 format
string used in the source. -/
def dt_to_http (dt : PyDateTime) : String :=
  ⟨strftimeRun dt ("%a, %d %b %Y %H:%M:%S GMT").data⟩

/-- ASCII lower-casing, the effect of `re.IGNORECASE` on the ASCII name
alternations `_strptime` compiles. -/
def asciiLower (c : Char) : Char :=
  if 65 ≤ c.toNat ∧ c.toNat ≤ 90 then Char.ofNat (c.toNat + 32) else c

/-- Characters matched by `\s` in the compiled `_strptime` pattern
(ASCII whitespace). -/
def isPySpace (c : Char) : Bool :=
  c = ' ' ∨ c = '\t' ∨ c = '\n' ∨ c = '\r' ∨ c.toNat = 11 ∨ c.toNat = 12

/-- Case-insensitive match of a (lower-case) name against the head of the
input; returns the remaining input on success. -/
def matchNameCI : List Char → List Char → Option (List Char)
  | [], s => some s
  | _ :: _, [] => none
  | n :: ns, c :: cs => if asciiLower c = n then matchNameCI ns cs else none

/-- First name of an alternation that matches, with its index (the
behaviour of the regex alternation `_strptime` builds from a name list). -/
def matchFirstAux (s : List Char) : List (List Char) → Nat → Option (Nat × List Char)
  | [], _ => none
  | n :: ns, i =>
    match matchNameCI n s with
    | some r => some (i, r)
    | none => matchFirstAux s ns (i + 1)

def matchFirst (names : List (List Char)) (s : List Char) : Option (Nat × List Char) :=
  matchFirstAux s names 0

/-- Lower-cased weekday alternation used by `%a` in `_strptime`. -/
def wdNamesLower : List (List Char) :=
  (["mon", "tue", "wed", "thu", "fri", "sat", "sun"] : List String).map String.data

/-- Lower-cased month alternation used by `%b` in `_strptime`. -/
def monNamesLower : List (List Char) :=
  (["jan", "feb", "mar", "apr", "may", "jun",
    "jul", "aug", "sep", "oct", "nov", "dec"] : List String).map String.data

/-- Timezone-name alternation used by `%Z` in `_strptime` (the names known
on a UTC host: `utc` and `gmt`, matched case-insensitively). -/
def tzNamesLower : List (List Char) :=
  (["utc", "gmt"] : List String).map String.data

/-- Numeric value of a decimal digit character. -/
def dval (c : Char) : Nat := c.toNat - 48

/-- The `%d` token of `_strptime`: regex `3[01]|[12]\d|0[1-9]|[1-9]`,
alternatives tried left to right. -/
def parseDayTok : List Char → Option (Nat × List Char)
  | [] => none
  | c1 :: rest =>
    match rest with
    | c2 :: rest2 =>
      if c1 = '3' ∧ (c2 = '0' ∨ c2 = '1') then some (10 * dval c1 + dval c2, rest2)
      else if (c1 = '1' ∨ c1 = '2') ∧ c2.isDigit then some (10 * dval c1 + dval c2, rest2)
      else if c1 = '0' ∧ c2.isDigit ∧ c2 ≠ '0' then some (10 * dval c1 + dval c2, rest2)
      else if c1.isDigit ∧ c1 ≠ '0' then some (dval c1, rest)
      else none
    | [] => if c1.isDigit ∧ c1 ≠ '0' then some (dval c1, []) else none

/-- The `%H` token of `_strptime`: regex `2[0-3]|[0-1]\d|\d`. -/
def parseHourTok : List Char → Option (Nat × List Char)
  | [] => none
  | c1 :: rest =>
    match rest with
    | c2 :: rest2 =>
      if c1 = '2' ∧ ('0' ≤ c2 ∧ c2 ≤ '3') then some (10 * dval c1 + dval c2, rest2)
      else if (c1 = '0' ∨ c1 = '1') ∧ c2.isDigit then some (10 * dval c1 + dval c2, rest2)
      else if c1.isDigit then some (dval c1, rest)
      else none
    | [] => if c1.isDigit then some (dval c1, []) else none

/-- The `%M` token of `_strptime`: regex `[0-5]\d|\d`. -/
def parseMinTok : List Char → Option (Nat × List Char)
  | [] => none
  | c1 :: rest =>
    match rest with
    | c2 :: rest2 =>
      if ('0' ≤ c1 ∧ c1 ≤ '5') ∧ c2.isDigit then some (10 * dval c1 + dval c2, rest2)
      else if c1.isDigit then some (dval c1, rest)
      else none
    | [] => if c1.isDigit then some (dval c1, []) else none

/-- The `%S` token of `_strptime`: regex `6[0-1]|[0-5]\d|\d` (leap seconds
60 and 61 match the regex; `datetime` construction rejects them later). -/
def parseSecTok : List Char → Option (Nat × List Char)
  | [] => none
  | c1 :: rest =>
    match rest with
    | c2 :: rest2 =>
      if c1 = '6' ∧ (c2 = '0' ∨ c2 = '1') then some (10 * dval c1 + dval c2, rest2)
      else if ('0' ≤ c1 ∧ c1 ≤ '5') ∧ c2.isDigit then some (10 * dval c1 + dval c2, rest2)
      else if c1.isDigit then some (dval c1, rest)
      else none
    | [] => if c1.isDigit then some (dval c1, []) else none

/-- The `%Y` token of `_strptime`: regex `\d\d\d\d`, exactly four digits. -/
def parseYear4 : List Char → Option (Nat × List Char)
  | c1 :: c2 :: c3 :: c4 :: rest =>
    if c1.isDigit ∧ c2.isDigit ∧ c3.isDigit ∧ c4.isDigit then
      some (dval c1 * 1000 + dval c2 * 100 + dval c3 * 10 + dval c4, rest)
    else none
  | _ => none

/-- Whitespace in the format string becomes `\s+` in the compiled pattern:
at least one whitespace character, consumed greedily. -/
def parseWs : List Char → Option (List Char)
  | c :: rest => if isPySpace c then some (rest.dropWhile isPySpace) else none
  | [] => none

/-- A single literal character of the format string. -/
def expectChar (c : Char) : List Char → Option (List Char)
  | x :: rest => if x = c then some rest else none
  | [] => none

/-- The range checks of the `datetime.datetime` constructor (here with
second precision), which `datetime.strptime` runs on the matched fields. -/
def mkDatetime (y m d h mi s : Nat) : Option PyDateTime :=
  if 1 ≤ y ∧ y ≤ 9999 ∧ 1 ≤ m ∧ m ≤ 12 ∧ 1 ≤ d ∧ d ≤ daysInMonth y m ∧
     h ≤ 23 ∧ mi ≤ 59 ∧ s ≤ 59
  then some (PyDateTime.mk y m d h mi s) else none

/-- Model of `datetime.strptime` specialised to the format
`"%a, %d %b %Y %H:%M:%S %Z"`: the compiled regex must match the whole
input, then the constructor checks run. The parsed weekday and timezone
names are matched but do not influence the result, exactly as in
`_strptime`. -/
def parseHttpDate (s0 : List Char) : Option PyDateTime :=
  match matchFirst wdNamesLower s0 with
  | none => none
  | some (_, s1) =>
  match expectChar ',' s1 with
  | none => none
  | some s2 =>
  match parseWs s2 with
  | none => none
  | some s3 =>
  match parseDayTok s3 with
  | none => none
  | some (d, s4) =>
  match parseWs s4 with
  | none => none
  | some s5 =>
  match matchFirst monNamesLower s5 with
  | none => none
  | some (mIdx, s6) =>
  match parseWs s6 with
  | none => none
  | some s7 =>
  match parseYear4 s7 with
  | none => none
  | some (y, s8) =>
  match parseWs s8 with
  | none => none
  | some s9 =>
  match parseHourTok s9 with
  | none => none
  | some (h, s10) =>
  match expectChar ':' s10 with
  | none => none
  | some s11 =>
  match parseMinTok s11 with
  | none => none
  | some (mi, s12) =>
  match expectChar ':' s12 with
  | none => none
  | some s13 =>
  match parseSecTok s13 with
  | none => none
  | some (sec, s14) =>
  match parseWs s14 with
  | none => none
  | some s15 =>
  match matchFirst tzNamesLower s15 with
  | none => none
  | some (_, s16) =>
  if s16 = [] then mkDatetime y (mIdx + 1) d h mi sec else none

/-- Model of `falcon.util.http_date_to_dt`: `datetime.strptime` with the fixed
format string used in the source; `none` models the `ValueError` raised
on a failed parse. -/
def http_date_to_dt (s : String) : Option PyDateTime :=
  parseHttpDate s.data

/-- A Python scalar value as it may appear in a query-parameter mapping:
a bool, an int, or a string. Distinct constructors model the distinct Python
object identities: the int `1` is a different value from `True`. -/
inductive PyScalar where
  | bool (b : Bool)
  | int (n : Int)
  | str (s : String)
deriving DecidableEq, Repr

/-- A query-parameter value: a scalar, or a list of scalars. -/
inductive PyValue where
  | scalar (v : PyScalar)
  | list (l : List PyScalar)
deriving DecidableEq, Repr

/-- Python `str()` on a scalar: `str(True) = "True"`, `str(False) = "False"`,
ints print in decimal with a leading `-` when negative, strings are
returned unchanged. -/
def strScalar : PyScalar → List Char
  | .bool b => if b then ("True").data else ("False").data
  | .int n => (toString n).data
  | .str s => s.data

/-- The value transform inside the `to_query_str` loop: `v is True` gives the text `true`, `v is False` gives
`false`, a list is joined by `str` over elements with comma separators,
anything else ↦ `str(v)`. -/
def queryValue : PyValue → List Char
  | .scalar (.bool true) => ("true").data
  | .scalar (.bool false) => ("false").data
  | .list l => List.intercalate (",").data (l.map strScalar)
  | .scalar v => strScalar v

/-- The loop of `falcon.util.to_query_str`: starting from `'?'`, append
`k + '=' + v + '&'` for each pair, then drop the trailing character
(`query_str[:-1]`); an empty mapping short-circuits to the empty string. -/
def toQueryStrCore (params : List (List Char × PyValue)) : List Char :=
  if params.isEmpty then []
  else (params.foldl (fun acc kv => acc ++ kv.1 ++ '=' :: queryValue kv.2 ++ ['&'])
    ['?']).dropLast

/-- Model of `falcon.util.to_query_str` on a mapping given in iteration order. -/
def to_query_str (params : List (String × PyValue)) : String :=
  ⟨toQueryStrCore (params.map fun kv => (kv.1.data, kv.2))⟩

/-- Specification-side rendering of the pairs: `key=value` pairs joined
with `&` and no trailing `&` (the description of the output in the spec). -/
def queryPairsSpec : List (List Char × PyValue) → List Char
  | [] => []
  | [kv] => kv.1 ++ '=' :: queryValue kv.2
  | kv :: rest => kv.1 ++ '=' :: queryValue kv.2 ++ '&' :: queryPairsSpec rest

/-- The characters `urllib.parse.quote` never escapes regardless of the
`safe` argument: ASCII letters, digits and `_.-~`. -/
def alwaysSafeChars : List Char :=
  ("ABCDEFGHIJKLMNOPQRSTUVWXYZabcdefghijklmnopqrstuvwxyz0123456789_.-~").data

/-- The `safe` argument the source passes to `urllib.quote`. -/
def falconSafeArg : List Char := ("/:,=?&-_").data

/-- Whether byte `b` stays unescaped in `urllib.quote` with the safe set
of the source. -/
def isSafeByte (b : Nat) : Bool :=
  ((alwaysSafeChars ++ falconSafeArg).map Char.toNat).contains b

/-- UTF-8 encoding of one unicode scalar value (UTF-8 `str.encode`,
one character at a time). -/
def utf8Encode (c : Char) : List Nat :=
  if c.toNat < 128 then [c.toNat]
  else if c.toNat < 2048 then [192 + c.toNat / 64, 128 + c.toNat % 64]
  else if c.toNat < 65536 then
    [224 + c.toNat / 4096, 128 + c.toNat / 64 % 64, 128 + c.toNat % 64]
  else
    [240 + c.toNat / 262144, 128 + c.toNat / 4096 % 64,
     128 + c.toNat / 64 % 64, 128 + c.toNat % 64]

/-- Upper-case hexadecimal digit for `n < 16`, as `quote` produces. -/
def hexUDigit : Nat → Char
  | 0 => '0'
  | 1 => '1'
  | 2 => '2'
  | 3 => '3'
  | 4 => '4'
  | 5 => '5'
  | 6 => '6'
  | 7 => '7'
  | 8 => '8'
  | 9 => '9'
  | 10 => 'A'
  | 11 => 'B'
  | 12 => 'C'
  | 13 => 'D'
  | 14 => 'E'
  | _ => 'F'

/-- Concatenation of the images of `f`, used in place of the Python
byte-string builders. -/
def concatMap (f : α → List β) : List α → List β
  | [] => []
  | a :: as => f a ++ concatMap f as

/-- Model of `quote_from_bytes` on one byte: safe bytes stay literal, everything
else becomes `%XX` with upper-case hex digits. -/
def escByte (b : Nat) : List Char :=
  if isSafeByte b then [Char.ofNat b] else ['%', hexUDigit (b / 16), hexUDigit (b % 16)]

/-- Model of `urllib.quote` with the safe set of the source: UTF-8 encode, then escape each
byte. -/
def percentEscapeCore (cs : List Char) : List Char :=
  concatMap escByte (concatMap utf8Encode cs)

/-- Model of `falcon.util.percent_escape`. -/
def percent_escape (s : String) : String :=
  ⟨percentEscapeCore s.data⟩

/-- Step of `unquote_plus` that first replaces every `+` with a space. -/
def plusToSpace (c : Char) : Char :=
  if c = '+' then ' ' else c

/-- Hexadecimal digit test, both cases (`_hextobyte` keys). -/
def isHexCh (c : Char) : Bool :=
  c.isDigit ∨ ('A' ≤ c ∧ c ≤ 'F') ∨ ('a' ≤ c ∧ c ≤ 'f')

/-- Value of a hexadecimal digit character. -/
def hexVal (c : Char) : Nat :=
  if 97 ≤ c.toNat then c.toNat - 87
  else if 65 ≤ c.toNat then c.toNat - 55
  else c.toNat - 48

/-- Model of `unquote_to_bytes` on an ASCII chunk: each `%XX` with two hex digits
becomes one byte; an invalid `%` stays a literal byte, and every other
character contributes its (ASCII) byte. -/
def unquoteToBytes : List Char → List Nat
  | [] => []
  | '%' :: c1 :: c2 :: rest =>
    if isHexCh c1 ∧ isHexCh c2 then
      (hexVal c1 * 16 + hexVal c2) :: unquoteToBytes rest
    else ('%').toNat :: unquoteToBytes (c1 :: c2 :: rest)
  | c :: rest => c.toNat :: unquoteToBytes rest

/-- Continuation byte test (`0x80`–`0xBF`). -/
def isCont (b : Nat) : Bool := 128 ≤ b ∧ b ≤ 191

/-- The CPython UTF-8 decoder under the replace error policy: well-formed sequences
decode to their scalar value; each maximal invalid subpart is replaced by
one U+FFFD. Lead-byte-specific ranges for the first continuation byte
exclude overlong forms, surrogates and values above U+10FFFF. -/
def utf8DecodeReplace : List Nat → List Char
  | [] => []
  | b :: rest =>
    if b < 128 then Char.ofNat b :: utf8DecodeReplace rest
    else if 194 ≤ b ∧ b ≤ 223 then
      match rest with
      | [] => ['�']
      | b2 :: rest2 =>
        if isCont b2 then
          Char.ofNat ((b - 192) * 64 + (b2 - 128)) :: utf8DecodeReplace rest2
        else '�' :: utf8DecodeReplace (b2 :: rest2)
    else if 224 ≤ b ∧ b ≤ 239 then
      match rest with
      | [] => ['�']
      | b2 :: rest2 =>
        if (b = 224 ∧ 160 ≤ b2 ∧ b2 ≤ 191) ∨ (b = 237 ∧ 128 ≤ b2 ∧ b2 ≤ 159) ∨
           (b ≠ 224 ∧ b ≠ 237 ∧ isCont b2) then
          match rest2 with
          | [] => ['�']
          | b3 :: rest3 =>
            if isCont b3 then
              Char.ofNat ((b - 224) * 4096 + (b2 - 128) * 64 + (b3 - 128)) ::
                utf8DecodeReplace rest3
            else '�' :: utf8DecodeReplace (b3 :: rest3)
        else '�' :: utf8DecodeReplace (b2 :: rest2)
    else if 240 ≤ b ∧ b ≤ 244 then
      match rest with
      | [] => ['�']
      | b2 :: rest2 =>
        if (b = 240 ∧ 144 ≤ b2 ∧ b2 ≤ 191) ∨ (b = 244 ∧ 128 ≤ b2 ∧ b2 ≤ 143) ∨
           (b ≠ 240 ∧ b ≠ 244 ∧ isCont b2) then
          match rest2 with
          | [] => ['�']
          | b3 :: rest3 =>
            if isCont b3 then
              match rest3 with
              | [] => ['�']
              | b4 :: rest4 =>
                if isCont b4 then
                  Char.ofNat ((b - 240) * 262144 + (b2 - 128) * 4096 +
                    (b3 - 128) * 64 + (b4 - 128)) :: utf8DecodeReplace rest4
                else '�' :: utf8DecodeReplace (b4 :: rest4)
            else '�' :: utf8DecodeReplace (b3 :: rest3)
        else '�' :: utf8DecodeReplace (b2 :: rest2)
    else '�' :: utf8DecodeReplace rest

/-- Decode one maximal ASCII chunk: `unquote_to_bytes`, then UTF-8 decode
with replacement. -/
def processAsciiRun (run : List Char) : List Char :=
  utf8DecodeReplace (unquoteToBytes run)

/-- Model of `unquote`: it splits the input at non-ASCII characters (`_asciire`):
ASCII chunks are byte-unquoted and decoded; non-ASCII characters pass
through unchanged. -/
def percentUnescapeRuns : List Char → List Char
  | [] => []
  | c :: rest =>
    if c.toNat < 128 then
      processAsciiRun (c :: rest.takeWhile (fun x => x.toNat < 128)) ++
        percentUnescapeRuns (rest.dropWhile (fun x => x.toNat < 128))
    else c :: percentUnescapeRuns rest
termination_by s => s.length
decreasing_by
  · simp only [List.length_cons]
    have h1 : (rest.dropWhile (fun x : Char => x.toNat < 128)).length ≤ rest.length :=
      List.Sublist.length_le (List.dropWhile_sublist _)
    omega
  · simp

/-- Model of `urllib.unquote_plus` with lossy UTF-8 decoding. -/
def percentUnescapeCore (cs : List Char) : List Char :=
  percentUnescapeRuns (cs.map plusToSpace)

/-- Model of `falcon.util.percent_unescape`. -/
def percent_unescape (s : String) : String :=
  ⟨percentUnescapeCore s.data⟩

/-- The warning categories relevant to the module: the built-in ones the
default filters mention, `UserWarning`, and the own
`DeprecatedWarning` of the module. -/
inductive PyWarnCategory where
  | userWarning
  | deprecationWarning
  | pendingDeprecationWarning
  | importWarning
  | resourceWarning
  | deprecatedWarning
deriving DecidableEq, Repr

/-- The subclass relation between the modelled categories: the source
declares `class DeprecatedWarning(UserWarning)`; the others are unrelated
leaves (their common `Warning` base never appears in a filter). -/
def isSubclass (a b : PyWarnCategory) : Bool :=
  a = b ∨ (a = .deprecatedWarning ∧ b = .userWarning)

inductive FilterAction where
  | ignore
  | showDefault
deriving DecidableEq, Repr

/-- The Python default warning filters: action, category, and an optional
module pattern (`None` matches every module). -/
def defaultFilters : List (FilterAction × PyWarnCategory × Option String) :=
  [(.showDefault, .deprecationWarning, some ("__main__")),
   (.ignore, .deprecationWarning, none),
   (.ignore, .pendingDeprecationWarning, none),
   (.ignore, .importWarning, none),
   (.ignore, .resourceWarning, none)]

/-- The action the default filter list yields for a warning of category
`cat` raised in module `module`; no match falls back to
`warnings.defaultaction`, i.e. show-once. -/
def filterAction (cat : PyWarnCategory) (module : String) : FilterAction :=
  match defaultFilters.find?
    (fun f => isSubclass cat f.2.1 && (f.2.2.isNone || f.2.2 == some module)) with
  | some f => f.1
  | none => .showDefault

/-- One emitted warning: its message and category (the call-site filename
and line number that `warn_explicit` also records do not affect the
observable contract and are omitted). -/
structure PyWarning where
  message : String
  category : PyWarnCategory
deriving DecidableEq, Repr

/-- Model of `falcon.util.deprecated`: the wrapper returned by
`deprecated(instructions)` applied to a function. The Python wrapper reads
`func.__name__`; here the name travels as an explicit argument. Calling
the wrapper emits one `DeprecatedWarning` whose message is
`Call to deprecated function {name}(...). {instructions}` and returns
the result of `func` unchanged; the result pairs the value with the list of
warnings emitted by the call. -/
def deprecated (instructions funcName : String) (func : α → β) :
    α → β × List PyWarning :=
  fun a =>
    (func a,
     [⟨("Call to deprecated function ") ++ funcName ++ ("(...). ") ++ instructions,
       .deprecatedWarning⟩])

/-- The loop body of `to_query_str`, written as a concatenation: every
pair contributes `key=value&`. -/
def ampJoin : List (List Char × PyValue) → List Char
  | [] => []
  | kv :: rest => kv.1 ++ '=' :: queryValue kv.2 ++ ['&'] ++ ampJoin rest

/-! Helper lemmas about the date rendering and parsing functions. -/

theorem daysInMonth_le (y m : Nat) : daysInMonth y m ≤ 31 := by
  unfold daysInMonth
  split
  · split <;> omega
  · split <;> omega

theorem weekdayIndex_lt (dt : PyDateTime) : weekdayIndex dt < 7 :=
  Nat.mod_lt _ (by omega)

theorem isPySpace_digitCh (k : Nat) : isPySpace (digitCh k) = false := by
  unfold digitCh
  split <;> rfl

theorem digitCh_isDigit (k : Nat) (h : k < 10) : (digitCh k).isDigit = true := by
  interval_cases k <;> rfl

theorem dval_digitCh (k : Nat) (h : k < 10) : dval (digitCh k) = k := by
  interval_cases k <;> rfl

/-- The rendered HTTP date, token by token: this is what `strftimeRun`
produces on the fixed format string. -/
theorem dt_to_http_render (dt : PyDateTime) :
    (dt_to_http dt).data =
      wdNames.getD (weekdayIndex dt) [] ++ ',' :: ' ' ::
      (pad2 dt.day ++ ' ' :: (monNames.getD (dt.month - 1) [] ++ ' ' ::
      (natDec4 dt.year ++ ' ' :: (pad2 dt.hour ++ ':' ::
      (pad2 dt.minute ++ ':' :: (pad2 dt.second ++ [' ', 'G', 'M', 'T'])))))) := rfl

/-- For years of at least four digits the unpadded rendering coincides
with the four-digit one. -/
theorem natDec4_eq_pad4 (n : Nat) (h : 1000 ≤ n) : natDec4 n = pad4 n := by
  unfold natDec4
  rw [if_neg (by omega), if_neg (by omega), if_neg (by omega)]

theorem parseWs_cons (c : Char) (t : List Char) (h : isPySpace c = false) :
    parseWs (' ' :: c :: t) = some (c :: t) := by
  show (if isPySpace ' ' then some ((c :: t).dropWhile isPySpace) else none) = some (c :: t)
  rw [if_pos (by decide), List.dropWhile_cons_of_neg (by simp [h])]

theorem matchFirst_wd (i : Nat) (h : i < 7) (rest : List Char) :
    matchFirst wdNamesLower (wdNames.getD i [] ++ rest) = some (i, rest) := by
  interval_cases i <;> rfl

theorem matchFirst_mon (m : Nat) (h1 : 1 ≤ m) (h2 : m ≤ 12) (rest : List Char) :
    matchFirst monNamesLower (monNames.getD (m - 1) [] ++ rest) = some (m - 1, rest) := by
  interval_cases m <;> rfl

theorem parseWs_mon (m : Nat) (h1 : 1 ≤ m) (h2 : m ≤ 12) (rest : List Char) :
    parseWs (' ' :: (monNames.getD (m - 1) [] ++ rest)) =
      some (monNames.getD (m - 1) [] ++ rest) := by
  interval_cases m <;> rfl

theorem parseDayTok_pad (d : Nat) (h1 : 1 ≤ d) (h2 : d ≤ 31) (rest : List Char) :
    parseDayTok (digitCh (d / 10) :: digitCh (d % 10) :: rest) = some (d, rest) := by
  interval_cases d <;> rfl

theorem parseHourTok_pad (n : Nat) (h : n ≤ 23) (rest : List Char) :
    parseHourTok (digitCh (n / 10) :: digitCh (n % 10) :: rest) = some (n, rest) := by
  interval_cases n <;> rfl

theorem parseMinTok_pad (n : Nat) (h : n ≤ 59) (rest : List Char) :
    parseMinTok (digitCh (n / 10) :: digitCh (n % 10) :: rest) = some (n, rest) := by
  interval_cases n <;> rfl

theorem parseSecTok_pad (n : Nat) (h : n ≤ 59) (rest : List Char) :
    parseSecTok (digitCh (n / 10) :: digitCh (n % 10) :: rest) = some (n, rest) := by
  interval_cases n <;> rfl

theorem parseYear4_pad (y : Nat) (h : y ≤ 9999) (rest : List Char) :
    parseYear4 (digitCh (y / 1000) :: digitCh (y / 100 % 10) ::
      digitCh (y / 10 % 10) :: digitCh (y % 10) :: rest) = some (y, rest) := by
  have q1 : y / 1000 < 10 := by omega
  have q2 : y / 100 % 10 < 10 := by omega
  have q3 : y / 10 % 10 < 10 := by omega
  have q4 : y % 10 < 10 := by omega
  show (if _ ∧ _ ∧ _ ∧ _ then _ else none) = _
  rw [if_pos ⟨digitCh_isDigit _ q1, digitCh_isDigit _ q2,
      digitCh_isDigit _ q3, digitCh_isDigit _ q4⟩]
  rw [dval_digitCh _ q1, dval_digitCh _ q2, dval_digitCh _ q3, dval_digitCh _ q4]
  have : y / 1000 * 1000 + y / 100 % 10 * 100 + y / 10 % 10 * 10 + y % 10 = y := by omega
  rw [this]

set_option maxHeartbeats 1000000 in
/-- Round-trip: parsing the rendered HTTP date of a valid second-precision
datetime with a four-digit year recovers that datetime (below year 1000
the unpadded year field no longer matches the four-digit `%Y` token of
`strptime`). -/
theorem http_date_roundtrip (dt : PyDateTime) (h : Valid dt)
    (hy : 1000 ≤ dt.year) :
    http_date_to_dt (dt_to_http dt) = some dt := by
  obtain ⟨y, m, d, hh, mi, s⟩ := dt
  obtain ⟨hy1, hy2, hm1, hm2, hd1, hd2, hhh, hmi, hs⟩ := h
  dsimp only at hy1 hy2 hm1 hm2 hd1 hd2 hhh hmi hs hy
  have hd31 : d ≤ 31 := le_trans hd2 (daysInMonth_le y m)
  show parseHttpDate (dt_to_http ⟨y, m, d, hh, mi, s⟩).data = _
  rw [dt_to_http_render]
  rw [show natDec4 (PyDateTime.mk y m d hh mi s).year = pad4 y from
    natDec4_eq_pad4 y hy]
  simp only [pad2, pad4, List.cons_append, List.nil_append]
  rw [parseHttpDate]
  rw [matchFirst_wd _ (weekdayIndex_lt ⟨y, m, d, hh, mi, s⟩)]
  dsimp only
  rw [show expectChar ',' (',' :: ' ' :: digitCh (d / 10) :: digitCh (d % 10) :: ' ' ::
        (monNames.getD (m - 1) [] ++ ' ' :: digitCh (y / 1000) :: digitCh (y / 100 % 10) ::
        digitCh (y / 10 % 10) :: digitCh (y % 10) :: ' ' :: digitCh (hh / 10) ::
        digitCh (hh % 10) :: ':' :: digitCh (mi / 10) :: digitCh (mi % 10) :: ':' ::
        digitCh (s / 10) :: digitCh (s % 10) :: [' ', 'G', 'M', 'T'])) = some _ from rfl]
  dsimp only
  rw [parseWs_cons _ _ (isPySpace_digitCh _)]
  dsimp only
  rw [parseDayTok_pad d hd1 hd31]
  dsimp only
  rw [parseWs_mon m hm1 hm2]
  dsimp only
  rw [matchFirst_mon m hm1 hm2]
  dsimp only
  rw [parseWs_cons _ _ (isPySpace_digitCh _)]
  dsimp only
  rw [parseYear4_pad y hy2]
  dsimp only
  rw [parseWs_cons _ _ (isPySpace_digitCh _)]
  dsimp only
  rw [parseHourTok_pad hh hhh]
  dsimp only
  rw [show expectChar ':' (':' :: digitCh (mi / 10) :: digitCh (mi % 10) :: ':' ::
        digitCh (s / 10) :: digitCh (s % 10) :: [' ', 'G', 'M', 'T']) = some _ from rfl]
  dsimp only
  rw [parseMinTok_pad mi hmi]
  dsimp only
  rw [show expectChar ':' (':' :: digitCh (s / 10) :: digitCh (s % 10) ::
        [' ', 'G', 'M', 'T']) = some _ from rfl]
  dsimp only
  rw [parseSecTok_pad s hs]
  dsimp only
  rw [parseWs_cons _ _ (show isPySpace 'G' = false from rfl)]
  dsimp only
  rw [show matchFirst tzNamesLower ['G', 'M', 'T'] = some (1, []) from rfl]
  dsimp only
  rw [if_pos rfl]
  have hm : m - 1 + 1 = m := by omega
  rw [hm]
  unfold mkDatetime
  rw [if_pos ⟨hy1, hy2, hm1, hm2, hd1, hd2, hhh, hmi, hs⟩]

theorem mkDatetime_sound (y m d h mi s : Nat) (dt : PyDateTime)
    (hE : mkDatetime y m d h mi s = some dt) : Valid dt := by
  unfold mkDatetime at hE
  split at hE
  · next hcond =>
      cases hE
      exact hcond
  · exact absurd hE (by simp)

set_option maxHeartbeats 1600000 in
/-- Every successful parse yields a datetime satisfying the constructor
invariants: the only way `parseHttpDate` returns `some` is through
`mkDatetime`. -/
theorem parseHttpDate_sound (s : List Char) (dt : PyDateTime)
    (h : parseHttpDate s = some dt) : Valid dt := by
  unfold parseHttpDate at h
  repeat' split at h
  all_goals try exact Option.noConfusion h
  exact mkDatetime_sound _ _ _ _ _ _ _ h

/-- C1 counterexample: the valid timestamp 0999-01-02 03:04:05 renders
with an unpadded three-digit year (`"Wed, 02 Jan 999 03:04:05 GMT"`), the
four-digit `%Y` token of `strptime` then fails, and the round trip returns
a parse error instead of the original timestamp — so the round-trip claim
fails for second-precision timestamps with years below 1000. -/
theorem claim_C1_counterexample :
    Valid ⟨999, 1, 2, 3, 4, 5⟩ ∧
    dt_to_http ⟨999, 1, 2, 3, 4, 5⟩ = "Wed, 02 Jan 999 03:04:05 GMT" ∧
    http_date_to_dt (dt_to_http ⟨999, 1, 2, 3, 4, 5⟩) = none := by
  refine ⟨by decide, by decide, by decide⟩

/-- C1 amended: for every valid second-precision timestamp whose year has
four digits (year at least 1000), `http_date_to_dt (dt_to_http t) = t`:
on that domain the two conversion functions are round-trip inverses. -/
theorem claim_C1 (dt : PyDateTime) (h : Valid dt) (hy : 1000 ≤ dt.year) :
    http_date_to_dt (dt_to_http dt) = some dt :=
  http_date_roundtrip dt h hy

theorem claim_C1_witness :
    Valid ⟨1994, 11, 15, 12, 45, 26⟩ ∧
    1000 ≤ (PyDateTime.mk 1994 11 15 12 45 26).year ∧
    http_date_to_dt (dt_to_http ⟨1994, 11, 15, 12, 45, 26⟩) =
      some ⟨1994, 11, 15, 12, 45, 26⟩ :=
  ⟨by decide, by decide,
   claim_C1 ⟨1994, 11, 15, 12, 45, 26⟩ (by decide) (by decide)⟩

/-- C2 counterexample: on the valid timestamp 0999-01-02 03:04:05 the
program renders `"Wed, 02 Jan 999 03:04:05 GMT"` — the year field is not
the four-digit `<YYYY>` of the claimed exact format — so the universal
exact-format claim fails for years below 1000. -/
theorem claim_C2_counterexample :
    Valid ⟨999, 1, 2, 3, 4, 5⟩ ∧
    dt_to_http ⟨999, 1, 2, 3, 4, 5⟩ = "Wed, 02 Jan 999 03:04:05 GMT" ∧
    ¬((dt_to_http ⟨999, 1, 2, 3, 4, 5⟩).data =
      wdNames.getD (weekdayIndex ⟨999, 1, 2, 3, 4, 5⟩) [] ++ ',' :: ' ' ::
      (pad2 2 ++ ' ' :: (monNames.getD 0 [] ++ ' ' ::
      (pad4 999 ++ ' ' :: (pad2 3 ++ ':' ::
      (pad2 4 ++ ':' :: (pad2 5 ++ [' ', 'G', 'M', 'T']))))))) := by
  refine ⟨by decide, by decide, by decide⟩

/-- C2 amended: for every valid timestamp, `dt_to_http` returns the fixed
format with English abbreviated weekday and month names, zero-padded
two-digit day, hour, minute and second fields, and the year rendered as
its unpadded decimal digits — which is the claimed four-digit `<YYYY>`
exactly when the year is at least 1000; on 1994-11-15 12:45:26 UTC the
result is exactly `"Tue, 15 Nov 1994 12:45:26 GMT"`. -/
theorem claim_C2 :
    (∀ dt : PyDateTime, Valid dt → 1000 ≤ dt.year →
      (dt_to_http dt).data =
        wdNames.getD (weekdayIndex dt) [] ++ ',' :: ' ' ::
        (pad2 dt.day ++ ' ' :: (monNames.getD (dt.month - 1) [] ++ ' ' ::
        (pad4 dt.year ++ ' ' :: (pad2 dt.hour ++ ':' ::
        (pad2 dt.minute ++ ':' :: (pad2 dt.second ++ [' ', 'G', 'M', 'T']))))))) ∧
    (∀ dt : PyDateTime, Valid dt →
      (dt_to_http dt).data =
        wdNames.getD (weekdayIndex dt) [] ++ ',' :: ' ' ::
        (pad2 dt.day ++ ' ' :: (monNames.getD (dt.month - 1) [] ++ ' ' ::
        (natDec4 dt.year ++ ' ' :: (pad2 dt.hour ++ ':' ::
        (pad2 dt.minute ++ ':' :: (pad2 dt.second ++ [' ', 'G', 'M', 'T']))))))) ∧
    dt_to_http ⟨1994, 11, 15, 12, 45, 26⟩ = "Tue, 15 Nov 1994 12:45:26 GMT" :=
  ⟨fun dt _ hy => by rw [dt_to_http_render dt, natDec4_eq_pad4 _ hy],
   fun dt _ => dt_to_http_render dt, by decide⟩

theorem claim_C2_witness :
    Valid ⟨2026, 2, 28, 23, 59, 59⟩ ∧
    1000 ≤ (PyDateTime.mk 2026 2 28 23 59 59).year ∧
    (dt_to_http ⟨2026, 2, 28, 23, 59, 59⟩).data =
      wdNames.getD (weekdayIndex ⟨2026, 2, 28, 23, 59, 59⟩) [] ++ ',' :: ' ' ::
      (pad2 28 ++ ' ' :: (monNames.getD 1 [] ++ ' ' ::
      (pad4 2026 ++ ' ' :: (pad2 23 ++ ':' ::
      (pad2 59 ++ ':' :: (pad2 59 ++ [' ', 'G', 'M', 'T'])))))) ∧
    (dt_to_http ⟨5, 1, 1, 0, 0, 0⟩).data =
      wdNames.getD (weekdayIndex ⟨5, 1, 1, 0, 0, 0⟩) [] ++ ',' :: ' ' ::
      (pad2 1 ++ ' ' :: (monNames.getD 0 [] ++ ' ' ::
      (natDec4 5 ++ ' ' :: (pad2 0 ++ ':' ::
      (pad2 0 ++ ':' :: (pad2 0 ++ [' ', 'G', 'M', 'T'])))))) :=
  ⟨by decide, by decide,
   claim_C2.1 ⟨2026, 2, 28, 23, 59, 59⟩ (by decide) (by decide),
   claim_C2.2.1 ⟨5, 1, 1, 0, 0, 0⟩ (by decide)⟩

/-- C3 counterexample: two strings that deviate from the fixed HTTP date
format — one with trailing timezone token `UTC` instead of `GMT`, one with
a one-digit day field instead of the fixed two-digit width — are both
parsed successfully rather than rejected, contradicting the claim that any
such deviation fails with a parse error. -/
theorem claim_C3_counterexample :
    http_date_to_dt ("Tue, 15 Nov 1994 12:45:26 UTC") =
      some ⟨1994, 11, 15, 12, 45, 26⟩ ∧
    http_date_to_dt ("Tue, 5 Nov 1994 12:45:26 GMT") =
      some ⟨1994, 11, 5, 12, 45, 26⟩ := by
  constructor <;> decide

/-- C3 amended: `http_date_to_dt` fails on strings that genuinely deviate
from the `strptime` pattern — misspelled weekday or month names, unknown
timezone tokens, a non-four-digit year, trailing text, or calendar-invalid
dates — and every successful parse satisfies the datetime invariants; but
the pattern is laxer than the fixed format: day/hour/minute/second may be
one or two digits, names match case-insensitively, and the timezone token
may be `GMT` or `UTC` in any case. -/
theorem claim_C3_amended :
    (∀ (s : String) (dt : PyDateTime), http_date_to_dt s = some dt → Valid dt) ∧
    http_date_to_dt ("Xyz, 15 Nov 1994 12:45:26 GMT") = none ∧
    http_date_to_dt ("Tue, 15 Nvo 1994 12:45:26 GMT") = none ∧
    http_date_to_dt ("Tue, 15 Nov 1994 12:45:26 EST") = none ∧
    http_date_to_dt ("Tue, 15 Nov 1994 12:45:26 GMT extra") = none ∧
    http_date_to_dt ("Tue, 31 Feb 1994 12:45:26 GMT") = none ∧
    http_date_to_dt ("Tue, 15 Nov 94 12:45:26 GMT") = none ∧
    http_date_to_dt ("Tue, 15 Nov 1994 12:45:61 GMT") = none ∧
    http_date_to_dt ("tUE, 15 nov 1994 12:45:26 utc") =
      some ⟨1994, 11, 15, 12, 45, 26⟩ ∧
    http_date_to_dt ("Tue, 5 Nov 1994 2:45:26 GMT") =
      some ⟨1994, 11, 5, 2, 45, 26⟩ :=
  ⟨fun s dt h => parseHttpDate_sound s.data dt h,
   by decide, by decide, by decide, by decide, by decide,
   by decide, by decide, by decide, by decide⟩

theorem claim_C3_amended_witness :
    http_date_to_dt ("Thu, 1 Jan 2026 0:0:0 GMT") = some ⟨2026, 1, 1, 0, 0, 0⟩ ∧
    Valid ⟨2026, 1, 1, 0, 0, 0⟩ :=
  ⟨by decide, claim_C3_amended.1 ("Thu, 1 Jan 2026 0:0:0 GMT") _ (by decide)⟩

theorem qfold (ps : List (List Char × PyValue)) (acc : List Char) :
    ps.foldl (fun acc kv => acc ++ kv.1 ++ '=' :: queryValue kv.2 ++ ['&']) acc =
      acc ++ ampJoin ps := by
  induction ps generalizing acc with
  | nil => simp [ampJoin]
  | cons kv rest ih =>
    rw [List.foldl_cons, ih]
    simp [ampJoin, List.append_assoc]

theorem ampJoin_ne_nil (kv : List Char × PyValue) (ps : List (List Char × PyValue)) :
    ampJoin (kv :: ps) ≠ [] := by
  simp [ampJoin]

theorem ampJoin_dropLast (kv : List Char × PyValue) (ps : List (List Char × PyValue)) :
    (ampJoin (kv :: ps)).dropLast = queryPairsSpec (kv :: ps) := by
  induction ps generalizing kv with
  | nil =>
    show (kv.1 ++ '=' :: queryValue kv.2 ++ ['&'] ++ ampJoin []).dropLast = _
    rw [show ampJoin [] = [] from rfl, List.append_nil]
    rw [show kv.1 ++ '=' :: queryValue kv.2 ++ ['&'] =
      (kv.1 ++ '=' :: queryValue kv.2) ++ ['&'] by simp [List.append_assoc]]
    rw [List.dropLast_concat]
    rfl
  | cons kv2 rest ih =>
    show (kv.1 ++ '=' :: queryValue kv.2 ++ ['&'] ++ ampJoin (kv2 :: rest)).dropLast = _
    rw [show kv.1 ++ '=' :: queryValue kv.2 ++ ['&'] ++ ampJoin (kv2 :: rest) =
      (kv.1 ++ '=' :: queryValue kv.2 ++ ['&']) ++ ampJoin (kv2 :: rest) by
        simp [List.append_assoc]]
    rw [List.dropLast_append_of_ne_nil _ (ampJoin_ne_nil kv2 rest), ih kv2]
    show _ = kv.1 ++ '=' :: queryValue kv.2 ++ '&' :: queryPairsSpec (kv2 :: rest)
    simp [List.append_assoc]

theorem toQueryStrCore_nonempty (ps : List (List Char × PyValue)) (h : ps ≠ []) :
    toQueryStrCore ps = '?' :: queryPairsSpec ps := by
  cases ps with
  | nil => exact absurd rfl h
  | cons kv rest =>
    unfold toQueryStrCore
    rw [if_neg (by simp)]
    rw [qfold]
    rw [show ['?'] ++ ampJoin (kv :: rest) = '?' :: ampJoin (kv :: rest) from rfl]
    rw [List.dropLast_cons_of_ne_nil (ampJoin_ne_nil kv rest), ampJoin_dropLast]

/-- C4: `to_query_str` of the empty mapping is the empty string; of every
non-empty mapping it is `?` followed by the `key=value` pairs joined with
`&` in iteration order and no trailing `&`; and on the example mapping
`{"a": 1, "b": True, "c": [1,2,3]}` it is exactly `"?a=1&b=true&c=1,2,3"`. -/
theorem claim_C4 :
    to_query_str [] = "" ∧
    (∀ ps : List (List Char × PyValue), ps ≠ [] →
      toQueryStrCore ps = '?' :: queryPairsSpec ps) ∧
    to_query_str [("a", .scalar (.int 1)), ("b", .scalar (.bool true)),
                  ("c", .list [.int 1, .int 2, .int 3])] = "?a=1&b=true&c=1,2,3" :=
  ⟨rfl, toQueryStrCore_nonempty, by decide⟩

theorem claim_C4_witness :
    ([(("x").data, PyValue.scalar (.int 7))] : List (List Char × PyValue)) ≠ [] ∧
    toQueryStrCore [(("x").data, PyValue.scalar (.int 7))] =
      '?' :: queryPairsSpec [(("x").data, PyValue.scalar (.int 7))] :=
  ⟨by decide, claim_C4.2.1 [(("x").data, PyValue.scalar (.int 7))] (by decide)⟩

/-- C5: the per-value transform of `to_query_str` maps the boolean `True`
to the literal text `true` and `False` to `false`, maps a list of scalars
to its elements stringified and joined with commas, and maps every other
value (ints, strings) through generic `str` conversion; it is total, and
on `[1,2,3]` produces `1,2,3`. -/
theorem claim_C5 :
    (∀ b : Bool, queryValue (.scalar (.bool b)) =
      (if b then ("true") else ("false")).data) ∧
    (∀ l : List PyScalar, queryValue (.list l) =
      List.intercalate (",").data (l.map strScalar)) ∧
    (∀ n : Int, queryValue (.scalar (.int n)) = (toString n).data) ∧
    (∀ s : String, queryValue (.scalar (.str s)) = s.data) ∧
    queryValue (.list [.int 1, .int 2, .int 3]) = ("1,2,3").data :=
  ⟨fun b => by cases b <;> rfl, fun l => rfl, fun n => rfl, fun s => rfl, by decide⟩

/-- C10: the query-string value transform distinguishes booleans from the
ints `1` and `0`: integer values render through `str` (so `1` and `0`),
never as `true`/`false`, while only the booleans themselves produce those
literal texts. -/
theorem claim_C10 :
    queryValue (.scalar (.int 1)) = ("1").data ∧
    queryValue (.scalar (.int 0)) = ("0").data ∧
    queryValue (.scalar (.int 1)) ≠ ("true").data ∧
    queryValue (.scalar (.int 0)) ≠ ("false").data ∧
    to_query_str [("a", .scalar (.int 1)), ("b", .scalar (.int 0))] = "?a=1&b=0" ∧
    to_query_str [("a", .scalar (.bool true)), ("b", .scalar (.bool false))] =
      "?a=true&b=false" :=
  ⟨by decide, by decide, by decide, by decide, by decide, by decide⟩

theorem utf8Encode_ascii (c : Char) (h : c.toNat < 128) : utf8Encode c = [c.toNat] := by
  unfold utf8Encode
  rw [if_pos h]

/-- C6: on ASCII input, `percent_escape` leaves a character unescaped
exactly when it is in the safe set, which consists of the characters
`/ : , = ? & - _` passed as `safe`, the characters standard URL escaping
never encodes (ASCII letters, digits, `.`, `~`, and again `-` and `_`),
and nothing else; every other byte becomes `%XX` with upper-case hex
digits of its UTF-8 bytes; `"/foo bar:baz"` keeps `/` and `:` and the
space becomes `%20`. -/
theorem claim_C6 :
    (∀ c : Char, c.toNat < 128 →
      (isSafeByte c.toNat = true → percentEscapeCore [c] = [c]) ∧
      (isSafeByte c.toNat = false →
        percentEscapeCore [c] =
          ['%', hexUDigit (c.toNat / 16), hexUDigit (c.toNat % 16)])) ∧
    (∀ b : Nat, b < 128 →
      (isSafeByte b = true ↔
        ((65 ≤ b ∧ b ≤ 90) ∨ (97 ≤ b ∧ b ≤ 122) ∨ (48 ≤ b ∧ b ≤ 57) ∨
          b ∈ ("/:,=?&-_.~").data.map Char.toNat))) ∧
    percent_escape ("/foo bar:baz") = "/foo%20bar:baz" := by
  refine ⟨fun c h => ⟨fun hs => ?_, fun hs => ?_⟩, ?_, by decide⟩
  · show concatMap escByte (concatMap utf8Encode [c]) = [c]
    rw [show concatMap utf8Encode [c] = utf8Encode c ++ [] from rfl,
      utf8Encode_ascii c h, List.append_nil]
    show escByte c.toNat ++ [] = [c]
    rw [List.append_nil]
    unfold escByte
    rw [if_pos hs, Char.ofNat_toNat]
  · show concatMap escByte (concatMap utf8Encode [c]) = _
    rw [show concatMap utf8Encode [c] = utf8Encode c ++ [] from rfl,
      utf8Encode_ascii c h, List.append_nil]
    show escByte c.toNat ++ [] = _
    rw [List.append_nil]
    unfold escByte
    rw [if_neg (by simp [hs])]
  · decide

theorem claim_C6_witness :
    ((' ').toNat < 128 ∧ isSafeByte (' ').toNat = false ∧
      percentEscapeCore [' '] = ['%', '2', '0']) ∧
    (('/').toNat < 128 ∧ isSafeByte ('/').toNat = true ∧
      percentEscapeCore ['/'] = ['/']) :=
  ⟨⟨by decide, by decide, (claim_C6.1 ' ' (by decide)).2 (by decide)⟩,
   ⟨by decide, by decide, (claim_C6.1 '/' (by decide)).1 (by decide)⟩⟩

theorem hexUDigit_isHex (k : Nat) (h : k < 16) : isHexCh (hexUDigit k) = true := by
  interval_cases k <;> rfl

theorem hexVal_hexUDigit (k : Nat) (h : k < 16) : hexVal (hexUDigit k) = k := by
  interval_cases k <;> rfl

theorem plusToSpace_hexUDigit (k : Nat) (h : k < 16) :
    plusToSpace (hexUDigit k) = hexUDigit k := by
  interval_cases k <;> rfl

theorem hexUDigit_ascii (k : Nat) (h : k < 16) : (hexUDigit k).toNat < 128 := by
  interval_cases k <;> decide

/-- Decoding a single `%XX` escape of an ASCII byte yields the character
of that byte. -/
theorem percentUnescape_hex (b : Nat) (hb : b < 128) :
    percentUnescapeCore ['%', hexUDigit (b / 16), hexUDigit (b % 16)] = [Char.ofNat b] := by
  have ha : b / 16 < 16 := by omega
  have hc : b % 16 < 16 := by omega
  have t1 := hexUDigit_ascii _ ha
  have t2 := hexUDigit_ascii _ hc
  unfold percentUnescapeCore
  rw [show List.map plusToSpace ['%', hexUDigit (b / 16), hexUDigit (b % 16)] =
    '%' :: plusToSpace (hexUDigit (b / 16)) :: plusToSpace (hexUDigit (b % 16)) :: []
    from rfl]
  rw [plusToSpace_hexUDigit _ ha, plusToSpace_hexUDigit _ hc]
  rw [percentUnescapeRuns]
  rw [if_pos (by decide)]
  simp only [List.takeWhile_cons, List.dropWhile_cons, t1, decide_True, t2,
    List.takeWhile_nil, List.dropWhile_nil, if_true]
  rw [percentUnescapeRuns]
  rw [List.append_nil]
  unfold processAsciiRun
  rw [show unquoteToBytes ('%' :: hexUDigit (b / 16) :: hexUDigit (b % 16) :: []) =
    if isHexCh (hexUDigit (b / 16)) ∧ isHexCh (hexUDigit (b % 16)) then
      (hexVal (hexUDigit (b / 16)) * 16 + hexVal (hexUDigit (b % 16))) :: unquoteToBytes []
    else ('%').toNat :: unquoteToBytes (hexUDigit (b / 16) :: hexUDigit (b % 16) :: [])
    from rfl]
  rw [if_pos ⟨hexUDigit_isHex _ ha, hexUDigit_isHex _ hc⟩]
  rw [hexVal_hexUDigit _ ha, hexVal_hexUDigit _ hc]
  rw [show b / 16 * 16 + b % 16 = b by omega]
  unfold utf8DecodeReplace
  rw [if_pos hb]
  rfl

/-- C7: `percent_unescape` decodes every `%XX` sequence, decodes `+` to a
space (so `"a+b%20c"` becomes `"a b c"`), and on percent-sequences whose
bytes are not valid UTF-8 it substitutes U+FFFD under the lossy
replacement policy and returns normally instead of failing. -/
theorem claim_C7 :
    percent_unescape ("a+b%20c") = "a b c" ∧
    (∀ b : Nat, b < 128 →
      percentUnescapeCore ['%', hexUDigit (b / 16), hexUDigit (b % 16)] =
        [Char.ofNat b]) ∧
    percent_unescape ("%FF") = "�" ∧
    percent_unescape ("%C3%28") = "�(" ∧
    percent_unescape ("%FFabc") = "�abc" := by
  refine ⟨?_, percentUnescape_hex, ?_, ?_, ?_⟩
  · refine String.ext ?_
    show percentUnescapeCore ['a', '+', 'b', '%', '2', '0', 'c'] = ['a', ' ', 'b', ' ', 'c']
    simp [percentUnescapeCore, percentUnescapeRuns, processAsciiRun, unquoteToBytes,
      utf8DecodeReplace, plusToSpace, isHexCh, hexVal, isCont,
      List.takeWhile, List.dropWhile]
  · refine String.ext ?_
    show percentUnescapeCore ['%', 'F', 'F'] = ['�']
    simp [percentUnescapeCore, percentUnescapeRuns, processAsciiRun, unquoteToBytes,
      utf8DecodeReplace, plusToSpace, isHexCh, hexVal, isCont,
      List.takeWhile, List.dropWhile]
  · refine String.ext ?_
    show percentUnescapeCore ['%', 'C', '3', '%', '2', '8'] = ['�', '(']
    simp [percentUnescapeCore, percentUnescapeRuns, processAsciiRun, unquoteToBytes,
      utf8DecodeReplace, plusToSpace, isHexCh, hexVal, isCont,
      List.takeWhile, List.dropWhile]
  · refine String.ext ?_
    show percentUnescapeCore ['%', 'F', 'F', 'a', 'b', 'c'] = ['�', 'a', 'b', 'c']
    simp [percentUnescapeCore, percentUnescapeRuns, processAsciiRun, unquoteToBytes,
      utf8DecodeReplace, plusToSpace, isHexCh, hexVal, isCont,
      List.takeWhile, List.dropWhile]

theorem claim_C7_witness :
    percentUnescapeCore ['%', '4', '1'] = ['A'] ∧ (65 : Nat) < 128 :=
  ⟨claim_C7.2.1 65 (by decide), by decide⟩

/-- C9: the two percent functions are not round-trip inverses on arbitrary
input: unescaping `"a+b"` turns the `+` into a space, and re-escaping
produces `"a%20b"`, not the original string (escaping never produces a
literal `+`). -/
theorem claim_C9 :
    percent_unescape ("a+b") = "a b" ∧
    percent_escape (percent_unescape ("a+b")) ≠ "a+b" ∧
    percent_escape (percent_unescape ("a+b")) = "a%20b" := by
  have h1 : percent_unescape ("a+b") = "a b" := by
    refine String.ext ?_
    show percentUnescapeCore ['a', '+', 'b'] = ['a', ' ', 'b']
    simp [percentUnescapeCore, percentUnescapeRuns, processAsciiRun, unquoteToBytes,
      utf8DecodeReplace, plusToSpace, isHexCh, hexVal, isCont,
      List.takeWhile, List.dropWhile]
  refine ⟨h1, ?_, ?_⟩
  · rw [h1]; decide
  · rw [h1]; decide

/-- C8: a function wrapped by `deprecated(instructions)` returns exactly
the value of the wrapped function on the same argument; every call emits
exactly one warning whose category is the dedicated `DeprecatedWarning`
and whose message contains the function name and the instructions; the
category is distinct from the built-in categories and the default warning
filters do not ignore it. -/
theorem claim_C8 :
    (∀ {α β : Type} (instr nm : String) (f : α → β) (a : α),
      (deprecated instr nm f a).1 = f a ∧
      (deprecated instr nm f a).2 =
        [⟨("Call to deprecated function ") ++ nm ++ ("(...). ") ++ instr,
          .deprecatedWarning⟩]) ∧
    (∀ instr nm : String, ∃ pre mid : String,
      ("Call to deprecated function ") ++ nm ++ ("(...). ") ++ instr =
        pre ++ nm ++ mid ++ instr) ∧
    (∀ m : String, filterAction .deprecatedWarning m = .showDefault) ∧
    PyWarnCategory.deprecatedWarning ≠ .userWarning ∧
    PyWarnCategory.deprecatedWarning ≠ .deprecationWarning :=
  ⟨fun instr nm f a => ⟨rfl, rfl⟩,
   fun instr nm => ⟨("Call to deprecated function "), ("(...). "), rfl⟩,
   fun m => rfl, by decide, by decide⟩

end Falcon
